import Mathlib

/-!
Verification of the log playback engine (Playback.cc): the `Playback`
factory with its topic selector, the snapshot taken by `Start`, the
`PlaybackHandle` worker loop, and the stop/wait lifecycle.

The embedding follows the source:
* the `Descriptor` catalog is the association list
  `topic name -> (type name -> id)` behind `TopicsToMsgTypesToId()`;
* `std::unordered_set<std::string>` becomes `Finset String`;
* a `std::regex` is abstracted as its full-string match function
  `String -> Bool` (the code only ever consults `std::regex_match`);
* the worker thread of `StartPlayback` is modelled as a function of the
  batch together with an idealized stop time `tstop` (the wall-clock
  instant, on the replay clock that starts at 0, from which the
  `stop` flag reads true); notifications wake waiters immediately and
  loop bodies take zero time;
* the cross-thread lifecycle (worker exit, `Stop`, `WaitUntilFinished`)
  is a small-step transition system over the shared flags.
-/

/-- The immutable catalog of `Log::Descriptor()`:
`topic name -> list of (message type name, internal id)`. -/
structure Descriptor where
  topicsToMsgTypesToId : List (String × List (String × Nat))
deriving DecidableEq

/-- The set of topic names known to the descriptor (the keys of the map). -/
def Descriptor.topicNames (d : Descriptor) : Finset String :=
  (d.topicsToMsgTypesToId.map Prod.fst).toFinset

/-- Read view of the log store: validity plus the descriptor. -/
structure Log where
  valid : Bool
  descriptor : Descriptor
deriving DecidableEq

/-- The state of `Playback::Implementation`: the opened log, the selector
set `topicNames` and the `addTopicWasUsed` flag. -/
structure Playback where
  logFile : Log
  topicNames : Finset String
  addTopicWasUsed : Bool
deriving DecidableEq

/-- `Playback::Implementation::Implementation`: fresh factory on an opened
log, empty selector, flag false. -/
def Playback.init (log : Log) : Playback :=
  { logFile := log, topicNames := ∅, addTopicWasUsed := false }

/-- `Playback::Implementation::DefaultToAllTopics`: if no AddTopic overload
was used yet, insert every descriptor topic into the selector and flip the
flag. -/
def Playback.DefaultToAllTopics (p : Playback) : Playback :=
  if p.addTopicWasUsed = false then
    { p with topicNames := p.topicNames ∪ p.logFile.descriptor.topicNames,
             addTopicWasUsed := true }
  else p

/-- `Playback::AddTopic(const std::string &)`: set the flag first; fail on
an invalid log; look the name up in the descriptor; warn-and-return-false
when absent; insert and return true when present. -/
def Playback.AddTopic (p : Playback) (t : String) : Playback × Bool :=
  let p1 : Playback := { p with addTopicWasUsed := true }
  if p1.logFile.valid = false then (p1, false)
  else
    match p1.logFile.descriptor.topicsToMsgTypesToId.find? (fun e => e.1 == t) with
    | none => (p1, false)
    | some _ => ({ p1 with topicNames := insert t p1.topicNames }, true)

/-- `Playback::AddTopic(const std::regex &)`: set the flag first; return -1
on an invalid log; otherwise insert every descriptor topic whose name
fully matches and return the match count. -/
def Playback.AddTopicRegex (p : Playback) (pat : String → Bool) : Playback × Int :=
  let p1 : Playback := { p with addTopicWasUsed := true }
  if p1.logFile.valid = false then (p1, -1)
  else
    let matched := p1.logFile.descriptor.topicsToMsgTypesToId.filter (fun e => pat e.1)
    ({ p1 with topicNames := p1.topicNames ∪ (matched.map Prod.fst).toFinset },
     (matched.length : Int))

/-- `Playback::RemoveTopic(const std::string &)`: materialize the default
set first, then erase; return whether an element was removed. -/
def Playback.RemoveTopic (p : Playback) (t : String) : Playback × Bool :=
  let p1 := p.DefaultToAllTopics
  ({ p1 with topicNames := p1.topicNames.erase t }, decide (t ∈ p1.topicNames))

/-- `Playback::RemoveTopic(const std::regex &)`: materialize the default
set, erase every member whose name fully matches, return the count. -/
def Playback.RemoveTopicRegex (p : Playback) (pat : String → Bool) : Playback × Int :=
  let p1 := p.DefaultToAllTopics
  let victims := p1.topicNames.filter (fun s => pat s = true)
  ({ p1 with topicNames := p1.topicNames \ victims }, (victims.card : Int))

/-- The snapshot of topics taken by `Playback::Start` (lines 221-233): all
descriptor topics if the flag is still false, the selector set otherwise. -/
def Playback.StartSnapshot (p : Playback) : Finset String :=
  if p.addTopicWasUsed = false then p.logFile.descriptor.topicNames
  else p.topicNames

/-- What `Start` can observe of the last issued handle through the weak
pointer: `none` models an expired (or never set) pointer, `some` a handle
that is still alive together with its `Finished()` value. -/
structure HandleLiveView where
  finished : Bool
deriving DecidableEq

/-- Result of `Playback::Start`: `noLog` is the invalid-log error return,
`refusedNotThreadsafe` the warn-and-return-nullptr branch, `started` a new
handle carrying the frozen snapshot. -/
inductive StartOutcome where
  | noLog
  | refusedNotThreadsafe
  | started (topics : Finset String)
deriving DecidableEq

/-- The guard `lastHandle && !lastHandle->Finished()` after locking the
weak pointer. -/
def aliveUnfinished (lastHandle : Option HandleLiveView) : Bool :=
  match lastHandle with
  | some h => !h.finished
  | none => false

/-- `Playback::Start`: fail on an invalid log; on a non-threadsafe sqlite3
refuse while the last issued handle is alive and unfinished; otherwise
snapshot the topics and construct a handle. `threadsafe` stands for the
compile-time constant `kSqlite3Threadsafe`. -/
def Playback.Start (threadsafe : Bool) (p : Playback)
    (lastHandle : Option HandleLiveView) : StartOutcome :=
  if p.logFile.valid = false then .noLog
  else if threadsafe = false && aliveUnfinished lastHandle then .refusedNotThreadsafe
  else .started p.StartSnapshot

/-- One selector mutation on the factory, as invoked through the public
interface. -/
inductive SelectorOp where
  | addName (t : String)
  | addRegex (pat : String → Bool)
  | removeName (t : String)
  | removeRegex (pat : String → Bool)
  | defaultAll

/-- Apply one selector mutation to the factory state. -/
def Playback.applyOp (p : Playback) (op : SelectorOp) : Playback :=
  match op with
  | .addName t => (p.AddTopic t).1
  | .addRegex pat => (p.AddTopicRegex pat).1
  | .removeName t => (p.RemoveTopic t).1
  | .removeRegex pat => (p.RemoveTopicRegex pat).1
  | .defaultAll => p.DefaultToAllTopics

/-- Apply a sequence of selector mutations, left to right. -/
def Playback.applyOps (p : Playback) (ops : List SelectorOp) : Playback :=
  ops.foldl Playback.applyOp p

/-- A recorded message as the worker sees it: `Topic()`, `Type()`,
`TimeReceived()` in nanosecond-like integer units. -/
structure Message where
  topic : String
  type : String
  timeReceived : Int
deriving DecidableEq

/-- Value of the atomic `stop` flag at replay-clock instant `now`, when the
user makes it true from instant `tstop` on (`none`: never). -/
def stopFlagAt (tstop : Option Int) (now : Int) : Bool :=
  match tstop with
  | none => false
  | some t => decide (t ≤ now)

/-- Instant at which `stopConditionVariable.wait_for(tempLock, target - now,
FinishedWaiting)` returns, on the idealized clock: the wait ends as soon as
`target <= now` or the stop flag is raised, and not before `now`. -/
def waitEndTime (tstop : Option Int) (now target : Int) : Int :=
  match tstop with
  | none => max now target
  | some t => max now (min target t)

/-- The worker loop body of `StartPlayback` (lines 449-510): iterate the
batch; break when the stop flag reads true at the top of an iteration;
publish the first message immediately; before every later message wait
until its target instant or until stop is raised, then publish it.
Arguments: remaining batch, current replay-clock instant, and
`firstMsgTime` once the first message has been published.  Returns the
messages actually handed to `PublishRaw`, in order. -/
def playbackLoop (tstop : Option Int) :
    List Message → Int → Option Int → List Message
  | [], _, _ => []
  | msg :: rest, now, firstMsgTime =>
    if stopFlagAt tstop now then []
    else
      match firstMsgTime with
      | none => msg :: playbackLoop tstop rest now (some msg.timeReceived)
      | some fmt =>
        msg :: playbackLoop tstop rest
          (waitEndTime tstop now (msg.timeReceived - fmt)) (some fmt)

/-- State of the handle when the worker thread has exited: the emitted
messages plus the final values of the `finished` and `stop` flags (lines
511-515 set both to true unconditionally at exit). -/
structure WorkerResult where
  emitted : List Message
  finished : Bool
  stop : Bool
deriving DecidableEq

/-- `PlaybackHandle::Implementation::StartPlayback`, run to worker exit:
the loop starts with the replay clock at 0 and no first message yet; on
exit `finished` and then `stop` are set. -/
def PlaybackHandle.StartPlayback (tstop : Option Int) (batch : List Message) :
    WorkerResult :=
  { emitted := playbackLoop tstop batch 0 none, finished := true, stop := true }

/-- Types registered for a topic in the descriptor; what
`PlaybackHandle::Implementation::AddTopic` iterates over.  The `none`
branch corresponds to dereferencing the end iterator in the source (shown
unreachable for factory-produced snapshots). -/
def descriptorTypesOf (d : Descriptor) (t : String) : List String :=
  match d.topicsToMsgTypesToId.find? (fun e => e.1 == t) with
  | some e => e.2.map Prod.fst
  | none => []

/-- The publishers table built during handle construction: one publisher
per `(topic, type)` pair with the topic in the snapshot and the type
registered for it in the descriptor. -/
def mkPublishers (d : Descriptor) (topics : Finset String) :
    Finset (String × String) :=
  topics.biUnion (fun t => ((descriptorTypesOf d t).map (fun ty => (t, ty))).toFinset)

/-- The data a constructed `PlaybackHandle::Implementation` holds: the
snapshot it was given, its publishers table, and the batch returned by
`QueryMessages` on the snapshot. -/
structure HandleData where
  topics : Finset String
  publishers : Finset (String × String)
  batch : List Message
deriving DecidableEq

/-- Handle construction (lines 347-370) from the log, the frozen snapshot
and the queried batch. -/
def mkHandleData (log : Log) (topics : Finset String) (batch : List Message) :
    HandleData :=
  { topics := topics
    publishers := mkPublishers log.descriptor topics
    batch := batch }

/-- A factory together with the handle issued by its last `Start` call;
used to state the frame property of selector mutations. -/
structure PlaybackWorld where
  factory : Playback
  issued : Option HandleData

/-- `Playback::Start` at the world level: on a valid log, issue a handle
built from the frozen snapshot and the batch the store returns for it
(`q` stands for `Log::QueryMessages` composed with `TopicList::Create`). -/
def PlaybackWorld.start (q : Finset String → List Message) (w : PlaybackWorld) :
    PlaybackWorld :=
  if w.factory.logFile.valid = false then { w with issued := none }
  else
    { w with issued := some (mkHandleData w.factory.logFile
        w.factory.StartSnapshot (q w.factory.StartSnapshot)) }

/-- A selector mutation at the world level: `Playback::AddTopic` and
`Playback::RemoveTopic` read and write only the members of the factory's
`Implementation` (lines 255-344); no handle state is touched. -/
def PlaybackWorld.applyOp (w : PlaybackWorld) (op : SelectorOp) : PlaybackWorld :=
  { w with factory := w.factory.applyOp op }

/-- A sequence of selector mutations at the world level. -/
def PlaybackWorld.applyOps (w : PlaybackWorld) (ops : List SelectorOp) :
    PlaybackWorld :=
  ops.foldl PlaybackWorld.applyOp w

/-- Progress of the worker thread through its exit protocol (lines
449-517): still in the loop; about to execute `finished = true`; about to
execute `stop = true` under the wait mutex; exited. -/
inductive WorkerPhase where
  | running
  | settingFinished
  | settingStop
  | exited
deriving DecidableEq

/-- Progress of a thread calling `Stop()` (lines 521-533). -/
inductive StopperPhase where
  | idle
  | stopping
  | joined
deriving DecidableEq

/-- Progress of a thread calling `WaitUntilFinished()` (lines 416-423). -/
inductive WaiterPhase where
  | idle
  | waiting
  | returned
deriving DecidableEq

/-- Shared state of one handle plus the control points of the worker, of
one `Stop()` caller and of one `WaitUntilFinished()` caller. -/
structure HandleConfig where
  validLog : Bool
  stop : Bool
  finished : Bool
  worker : WorkerPhase
  stopper : StopperPhase
  waiter : WaiterPhase
deriving DecidableEq

/-- Interleaved small steps of the three threads, each an atomic action of
the source: the worker may leave its loop (stop observed or batch
exhausted) and then runs `finished = true; stop = true`; `Stop()` runs
`stop = true; notify` and joins once the worker has exited;
`WaitUntilFinished()` returns at once when the log is invalid or `stop`
reads true, otherwise blocks until `finished` reads true. -/
inductive HandleStep : HandleConfig → HandleConfig → Prop where
  | workerExitLoop (c : HandleConfig) (h : c.worker = .running) :
      HandleStep c { c with worker := .settingFinished }
  | workerSetFinished (c : HandleConfig) (h : c.worker = .settingFinished) :
      HandleStep c { c with finished := true, worker := .settingStop }
  | workerSetStop (c : HandleConfig) (h : c.worker = .settingStop) :
      HandleStep c { c with stop := true, worker := .exited }
  | stopperSetStop (c : HandleConfig) (h : c.stopper = .idle) :
      HandleStep c { c with stop := true, stopper := .stopping }
  | stopperJoin (c : HandleConfig) (h1 : c.stopper = .stopping)
      (h2 : c.worker = .exited) :
      HandleStep c { c with stopper := .joined }
  | waiterFastReturn (c : HandleConfig) (h : c.waiter = .idle)
      (h2 : c.validLog = false ∨ c.stop = true) :
      HandleStep c { c with waiter := .returned }
  | waiterEnterWait (c : HandleConfig) (h : c.waiter = .idle)
      (h2 : c.validLog = true) (h3 : c.stop = false) :
      HandleStep c { c with waiter := .waiting }
  | waiterWake (c : HandleConfig) (h : c.waiter = .waiting)
      (h2 : c.finished = true) :
      HandleStep c { c with waiter := .returned }

/-- Initial configuration right after `StartPlayback` spawned the worker on
a valid log: `stop` was just set false (line 428), `finished` is false,
all three threads at their entry points. -/
def handleInit : HandleConfig :=
  { validLog := true, stop := false, finished := false
    worker := .running, stopper := .idle, waiter := .idle }

/-- Configuration reached when `Stop()` has set the stop flag and a
concurrent `WaitUntilFinished()` has taken its fast path, while the worker
is still inside the loop. -/
def handleRaceConfig : HandleConfig :=
  { validLog := true, stop := true, finished := false
    worker := .running, stopper := .stopping, waiter := .returned }

/-- Sample descriptor with two topics, one message type each. -/
def descEx : Descriptor := ⟨[("t1", [("msgs.A", 1)]), ("t2", [("msgs.A", 2)])]⟩

/-- A valid opened log over `descEx`. -/
def logEx : Log := { valid := true, descriptor := descEx }

/-- A log that failed to open (`Open` failed, `Valid()` is false). -/
def logBad : Log := { valid := false, descriptor := descEx }

/-- The three messages of scenario S2, times in milliseconds. -/
def msgA : Message := { topic := "/foo", type := "msgs.T", timeReceived := 0 }

/-- Second S2 message, at 100ms. -/
def msgB : Message := { topic := "/foo", type := "msgs.T", timeReceived := 100 }

/-- Third S2 message, at 250ms. -/
def msgC : Message := { topic := "/foo", type := "msgs.T", timeReceived := 250 }

/-- The S2 batch, in `time_received` order. -/
def sampleBatch : List Message := [msgA, msgB, msgC]

/-- Membership in the descriptor's topic-name set, unfolded to the
association list. -/
theorem Descriptor.mem_topicNames {d : Descriptor} {t : String} :
    t ∈ d.topicNames ↔ ∃ e ∈ d.topicsToMsgTypesToId, e.1 = t := by
  simp [Descriptor.topicNames]

/-- The descriptor lookup `allTopics.find(topic)` succeeds exactly for the
descriptor's topic names. -/
theorem find?_topic_isSome_iff {d : Descriptor} {t : String} :
    (d.topicsToMsgTypesToId.find? (fun e => e.1 == t)).isSome
      ↔ t ∈ d.topicNames := by
  rw [List.find?_isSome, Descriptor.mem_topicNames]
  constructor
  · rintro ⟨e, he, hp⟩
    exact ⟨e, he, by simpa using hp⟩
  · rintro ⟨e, he, hp⟩
    exact ⟨e, he, by simp [hp]⟩

/-- `DefaultToAllTopics` does not touch the log. -/
theorem Playback.DefaultToAllTopics_logFile (p : Playback) :
    p.DefaultToAllTopics.logFile = p.logFile := by
  unfold Playback.DefaultToAllTopics
  split <;> rfl

/-- No selector mutation touches the log. -/
theorem Playback.applyOp_logFile (p : Playback) (op : SelectorOp) :
    (p.applyOp op).logFile = p.logFile := by
  cases op with
  | addName t =>
      simp only [Playback.applyOp, Playback.AddTopic]
      split
      · rfl
      · split <;> rfl
  | addRegex pat =>
      simp only [Playback.applyOp, Playback.AddTopicRegex]
      split <;> rfl
  | removeName t =>
      simp only [Playback.applyOp, Playback.RemoveTopic]
      exact Playback.DefaultToAllTopics_logFile p
  | removeRegex pat =>
      simp only [Playback.applyOp, Playback.RemoveTopicRegex]
      exact Playback.DefaultToAllTopics_logFile p
  | defaultAll =>
      exact Playback.DefaultToAllTopics_logFile p

/-- No sequence of selector mutations touches the log. -/
theorem Playback.applyOps_logFile (p : Playback) (ops : List SelectorOp) :
    (p.applyOps ops).logFile = p.logFile := by
  induction ops generalizing p with
  | nil => rfl
  | cons op rest ih =>
      simp only [Playback.applyOps, List.foldl_cons]
      exact (ih (p.applyOp op)).trans (Playback.applyOp_logFile p op)

/-- `DefaultToAllTopics` keeps the selector inside the descriptor's
topic-name set. -/
theorem Playback.DefaultToAllTopics_subset (p : Playback)
    (h : p.topicNames ⊆ p.logFile.descriptor.topicNames) :
    p.DefaultToAllTopics.topicNames ⊆ p.logFile.descriptor.topicNames := by
  unfold Playback.DefaultToAllTopics
  split
  · exact Finset.union_subset h (Finset.Subset.refl _)
  · exact h

/-- One selector mutation keeps the selector inside the descriptor's
topic-name set. -/
theorem Playback.applyOp_topicNames_subset (p : Playback) (op : SelectorOp)
    (h : p.topicNames ⊆ p.logFile.descriptor.topicNames) :
    (p.applyOp op).topicNames ⊆ p.logFile.descriptor.topicNames := by
  cases op with
  | addName t =>
      simp only [Playback.applyOp, Playback.AddTopic]
      split
      · exact h
      · split
        · exact h
        · rename_i e heq
          intro x hx
          rcases Finset.mem_insert.mp hx with rfl | hx
          · have he : e ∈ p.logFile.descriptor.topicsToMsgTypesToId :=
              List.mem_of_find?_eq_some heq
            have hp : e.1 = x := by simpa using List.find?_some heq
            exact Descriptor.mem_topicNames.mpr ⟨e, he, hp⟩
          · exact h hx
  | addRegex pat =>
      simp only [Playback.applyOp, Playback.AddTopicRegex]
      split
      · exact h
      · refine Finset.union_subset h ?_
        intro x hx
        simp only [List.mem_toFinset, List.mem_map] at hx
        obtain ⟨e, he, hfst⟩ := hx
        exact Descriptor.mem_topicNames.mpr
          ⟨e, List.mem_of_mem_filter he, hfst⟩
  | removeName t =>
      simp only [Playback.applyOp, Playback.RemoveTopic]
      refine Finset.Subset.trans (Finset.erase_subset t _) ?_
      exact Playback.DefaultToAllTopics_subset p h
  | removeRegex pat =>
      simp only [Playback.applyOp, Playback.RemoveTopicRegex]
      refine Finset.Subset.trans (Finset.sdiff_subset) ?_
      exact Playback.DefaultToAllTopics_subset p h
  | defaultAll =>
      exact Playback.DefaultToAllTopics_subset p h

/-- Any sequence of selector mutations keeps the selector inside the
descriptor's topic-name set. -/
theorem Playback.applyOps_topicNames_subset (p : Playback) (ops : List SelectorOp)
    (h : p.topicNames ⊆ p.logFile.descriptor.topicNames) :
    (p.applyOps ops).topicNames ⊆ p.logFile.descriptor.topicNames := by
  induction ops generalizing p with
  | nil => exact h
  | cons op rest ih =>
      simp only [Playback.applyOps, List.foldl_cons]
      have h1 := Playback.applyOp_topicNames_subset p op h
      have h2 := ih (p.applyOp op)
        (by rw [Playback.applyOp_logFile]; exact h1)
      rw [Playback.applyOp_logFile] at h2
      exact h2

/-- Whatever the worker publishes is a (order-preserving) selection from
the batch it was given. -/
theorem playbackLoop_sublist (tstop : Option Int) (batch : List Message) :
    ∀ (now : Int) (fmt : Option Int),
      List.Sublist (playbackLoop tstop batch now fmt) batch := by
  induction batch with
  | nil =>
      intro now fmt
      simp [playbackLoop]
  | cons m rest ih =>
      intro now fmt
      simp only [playbackLoop]
      split
      · exact List.nil_sublist _
      · cases fmt with
        | none => exact List.Sublist.cons₂ m (ih now (some m.timeReceived))
        | some f =>
            exact List.Sublist.cons₂ m
              (ih (waitEndTime tstop now (m.timeReceived - f)) (some f))

/-- The race interleaving: `Stop()` sets the stop flag, then a concurrent
`WaitUntilFinished()` takes its fast path and returns, while the worker is
still inside the loop. -/
theorem reach_handleRaceConfig :
    Relation.ReflTransGen HandleStep handleInit handleRaceConfig := by
  have s1 : HandleStep handleInit
      { validLog := true, stop := true, finished := false
        worker := .running, stopper := .stopping, waiter := .idle } :=
    HandleStep.stopperSetStop handleInit rfl
  have s2 : HandleStep
      { validLog := true, stop := true, finished := false
        worker := .running, stopper := .stopping, waiter := .idle }
      handleRaceConfig :=
    HandleStep.waiterFastReturn _ rfl (Or.inr rfl)
  exact Relation.ReflTransGen.head s1 (Relation.ReflTransGen.single s2)

/-- Claim C1, code evaluated at the failing input: with messages at
0ms/100ms/250ms and the stop flag raised at wall-clock 120ms (while the
worker sits in the timed wait before the third message), the worker does
NOT skip the third message: the interrupted wait falls through to the
publish, so all three messages are emitted, after which `finished`
becomes true.  The claim says the third message is not emitted. -/
theorem C1_stop_during_wait_still_emits_third :
    (PlaybackHandle.StartPlayback (some 120) sampleBatch).emitted = [msgA, msgB, msgC]
    ∧ (PlaybackHandle.StartPlayback (some 120) sampleBatch).emitted ≠ [msgA, msgB]
    ∧ (PlaybackHandle.StartPlayback (some 120) sampleBatch).finished = true := by
  decide

/-- Claim C4, counterexample: on the two-topic log `logEx`, calling only
`RemoveTopic("t1")` — no `AddTopic` call at all — leaves a start snapshot
that is NOT the full descriptor topic set, refuting the claim as stated
(its hypothesis only excludes `AddTopic` calls). -/
theorem C4_counterexample :
    (Playback.init logEx).addTopicWasUsed = false
    ∧ ((Playback.init logEx).RemoveTopic "t1").1.StartSnapshot
        ≠ logEx.descriptor.topicNames := by
  decide

/-- Claim C4, amended: if NO selector mutation at all has been performed
(neither `AddTopic` nor `RemoveTopic`, so `addTopicWasUsed` is still
false), the snapshot captured by `Start` on a valid log equals the full
set of topic names in the descriptor. -/
theorem C4_untouched_selector_snapshot (log : Log) (hv : log.valid = true) :
    (Playback.init log).StartSnapshot = log.descriptor.topicNames := by
  simp [Playback.init, Playback.StartSnapshot]

/-- Witness for the amended C4 at the concrete valid log `logEx`. -/
theorem C4_untouched_selector_snapshot_witness :
    (Playback.init logEx).StartSnapshot = logEx.descriptor.topicNames :=
  C4_untouched_selector_snapshot logEx rfl

/-- Claim C5: if `RemoveTopic(X)` is the only selector mutation performed
before `Start` on a valid log, the snapshot equals the descriptor's topic
set minus `{X}` (the default set is materialized first, then `X` erased). -/
theorem C5_remove_only_mutation (log : Log) (X : String) (hv : log.valid = true) :
    ((Playback.init log).RemoveTopic X).1.StartSnapshot
      = log.descriptor.topicNames.erase X
    ∧ ((Playback.init log).RemoveTopic X).1.StartSnapshot
      = log.descriptor.topicNames \ {X} := by
  have h1 : ((Playback.init log).RemoveTopic X).1.StartSnapshot
      = log.descriptor.topicNames.erase X := by
    simp [Playback.init, Playback.RemoveTopic, Playback.DefaultToAllTopics,
      Playback.StartSnapshot]
  exact ⟨h1, h1.trans (Finset.sdiff_singleton_eq_erase X _).symm⟩

/-- Witness for C5 at the concrete valid log `logEx` and topic `t1`. -/
theorem C5_remove_only_mutation_witness :
    ((Playback.init logEx).RemoveTopic "t1").1.StartSnapshot
      = logEx.descriptor.topicNames.erase "t1"
    ∧ ((Playback.init logEx).RemoveTopic "t1").1.StartSnapshot
      = logEx.descriptor.topicNames \ {"t1"} :=
  C5_remove_only_mutation logEx "t1" rfl

/-- Claim C6: on a non-threadsafe store with a valid log, `Start` refuses
(warn, no handle) exactly while the last issued handle is still alive and
not finished; once that handle is expired or finished, `Start` issues a
new handle carrying the snapshot. -/
theorem C6_nonthreadsafe_one_live_handle (p : Playback)
    (hv : p.logFile.valid = true) :
    Playback.Start false p (some ⟨false⟩) = StartOutcome.refusedNotThreadsafe
    ∧ Playback.Start false p none = StartOutcome.started p.StartSnapshot
    ∧ Playback.Start false p (some ⟨true⟩) = StartOutcome.started p.StartSnapshot := by
  simp [Playback.Start, aliveUnfinished, hv]

/-- Witness for C6 at the concrete valid factory `Playback.init logEx`. -/
theorem C6_nonthreadsafe_one_live_handle_witness :
    Playback.Start false (Playback.init logEx) (some ⟨false⟩)
      = StartOutcome.refusedNotThreadsafe
    ∧ Playback.Start false (Playback.init logEx) none
      = StartOutcome.started (Playback.init logEx).StartSnapshot
    ∧ Playback.Start false (Playback.init logEx) (some ⟨true⟩)
      = StartOutcome.started (Playback.init logEx).StartSnapshot :=
  C6_nonthreadsafe_one_live_handle (Playback.init logEx) rfl

/-- Claim C9: `AddTopic(name)` always sets `addTopicWasUsed`; on an invalid
log it returns false without touching the set; on a valid log it returns
false without touching the set when the name is absent from the
descriptor, and inserts the name and returns true when present. -/
theorem C9_AddTopic_name_behavior (p : Playback) (t : String) :
    (p.AddTopic t).1.addTopicWasUsed = true
    ∧ (p.logFile.valid = false →
        (p.AddTopic t).2 = false ∧ (p.AddTopic t).1.topicNames = p.topicNames)
    ∧ (p.logFile.valid = true → t ∉ p.logFile.descriptor.topicNames →
        (p.AddTopic t).2 = false ∧ (p.AddTopic t).1.topicNames = p.topicNames)
    ∧ (p.logFile.valid = true → t ∈ p.logFile.descriptor.topicNames →
        (p.AddTopic t).2 = true
        ∧ (p.AddTopic t).1.topicNames = insert t p.topicNames) := by
  refine ⟨?_, ?_, ?_, ?_⟩
  · simp only [Playback.AddTopic]
    split
    · rfl
    · split <;> rfl
  · intro hv
    simp [Playback.AddTopic, hv]
  · intro hv habs
    have hnone : p.logFile.descriptor.topicsToMsgTypesToId.find?
        (fun e => e.1 == t) = none := by
      rcases hfind : p.logFile.descriptor.topicsToMsgTypesToId.find?
          (fun e => e.1 == t) with _ | e
      · exact hfind
      · exact absurd (find?_topic_isSome_iff.mp (by rw [hfind]; rfl)) habs
    simp [Playback.AddTopic, hv, hnone]
  · intro hv hmem
    have hsome : (p.logFile.descriptor.topicsToMsgTypesToId.find?
        (fun e => e.1 == t)).isSome = true :=
      find?_topic_isSome_iff.mpr hmem
    rcases hfind : p.logFile.descriptor.topicsToMsgTypesToId.find?
        (fun e => e.1 == t) with _ | e
    · rw [hfind] at hsome
      simp at hsome
    · simp [Playback.AddTopic, hv, hfind]

/-- Witness for C9 at the concrete factory on `logEx`: adding the present
topic `t1` succeeds and inserts it. -/
theorem C9_AddTopic_name_behavior_witness :
    ((Playback.init logEx).AddTopic "t1").2 = true
    ∧ ((Playback.init logEx).AddTopic "t1").1.topicNames
        = insert "t1" (Playback.init logEx).topicNames :=
  (C9_AddTopic_name_behavior (Playback.init logEx) "t1").2.2.2 rfl (by decide)

/-- Claim C2, counterexample: on an invalid log, `AddTopic(regex)` returns
-1, not a match count that is greater than or equal to zero. -/
theorem C2_counterexample :
    ((Playback.init logBad).AddTopicRegex (fun _ => true)).2 = -1
    ∧ ¬(0 ≤ ((Playback.init logBad).AddTopicRegex (fun _ => true)).2) := by
  decide

/-- Claim C2, amended: `AddTopic(regex)` always sets `addTopicWasUsed`; on
a VALID log it inserts every descriptor topic whose name fully matches and
returns the match count, which is at least zero; on an invalid log it
returns -1 and inserts nothing. -/
theorem C2_AddTopicRegex_behavior (p : Playback) (pat : String → Bool) :
    (p.AddTopicRegex pat).1.addTopicWasUsed = true
    ∧ (p.logFile.valid = true →
        (p.AddTopicRegex pat).2 =
          ((p.logFile.descriptor.topicsToMsgTypesToId.filter
            (fun e => pat e.1)).length : Int)
        ∧ 0 ≤ (p.AddTopicRegex pat).2
        ∧ (∀ t ∈ p.logFile.descriptor.topicNames, pat t = true →
            t ∈ (p.AddTopicRegex pat).1.topicNames)
        ∧ p.topicNames ⊆ (p.AddTopicRegex pat).1.topicNames)
    ∧ (p.logFile.valid = false →
        (p.AddTopicRegex pat).2 = -1
        ∧ (p.AddTopicRegex pat).1.topicNames = p.topicNames) := by
  refine ⟨?_, ?_, ?_⟩
  · simp only [Playback.AddTopicRegex]
    split <;> rfl
  · intro hv
    have hret : (p.AddTopicRegex pat).2 =
        ((p.logFile.descriptor.topicsToMsgTypesToId.filter
          (fun e => pat e.1)).length : Int) := by
      simp [Playback.AddTopicRegex, hv]
    have hset : (p.AddTopicRegex pat).1.topicNames = p.topicNames ∪
        ((p.logFile.descriptor.topicsToMsgTypesToId.filter
          (fun e => pat e.1)).map Prod.fst).toFinset := by
      simp [Playback.AddTopicRegex, hv]
    refine ⟨hret, hret ▸ Int.natCast_nonneg _, ?_, ?_⟩
    · intro t ht hp
      obtain ⟨e, he, het⟩ := Descriptor.mem_topicNames.mp ht
      rw [hset]
      refine Finset.mem_union_right _ ?_
      simp only [List.mem_toFinset, List.mem_map]
      exact ⟨e, List.mem_filter.mpr ⟨he, by rw [het]; exact hp⟩, het⟩
    · intro x hx
      rw [hset]
      exact Finset.mem_union_left _ hx
  · intro hv
    simp [Playback.AddTopicRegex, hv]

/-- Witness for the amended C2 at the concrete valid log `logEx` with a
pattern matching exactly topic `t2`. -/
theorem C2_AddTopicRegex_behavior_witness :
    ((Playback.init logEx).AddTopicRegex (fun s => s == "t2")).2 =
      ((logEx.descriptor.topicsToMsgTypesToId.filter
        (fun e => e.1 == "t2")).length : Int)
    ∧ 0 ≤ ((Playback.init logEx).AddTopicRegex (fun s => s == "t2")).2
    ∧ "t2" ∈ ((Playback.init logEx).AddTopicRegex (fun s => s == "t2")).1.topicNames := by
  have h := (C2_AddTopicRegex_behavior (Playback.init logEx)
    (fun s => s == "t2")).2.1 rfl
  exact ⟨h.1, h.2.1, h.2.2.1 "t2" (by decide) (by decide)⟩

/-- Claim C10: after any sequence of selector operations on a fixed
descriptor, the selector set stays inside the descriptor's topic names;
hence the snapshot passed to handle construction contains only descriptor
keys, and the descriptor lookup dereferenced without a guard in
`PlaybackHandle::Implementation::AddTopic` succeeds for every snapshot
member (the end iterator is never dereferenced). -/
theorem C10_snapshot_within_descriptor (log : Log) (ops : List SelectorOp) :
    ((Playback.init log).applyOps ops).topicNames ⊆ log.descriptor.topicNames
    ∧ ((Playback.init log).applyOps ops).StartSnapshot ⊆ log.descriptor.topicNames
    ∧ ∀ t ∈ ((Playback.init log).applyOps ops).StartSnapshot,
        (log.descriptor.topicsToMsgTypesToId.find? (fun e => e.1 == t)).isSome
          = true := by
  have hlog : ((Playback.init log).applyOps ops).logFile = log :=
    Playback.applyOps_logFile _ _
  have hsub : ((Playback.init log).applyOps ops).topicNames
      ⊆ log.descriptor.topicNames :=
    Playback.applyOps_topicNames_subset (Playback.init log) ops
      (by simp [Playback.init])
  have hsnap : ((Playback.init log).applyOps ops).StartSnapshot
      ⊆ log.descriptor.topicNames := by
    unfold Playback.StartSnapshot
    split
    · rw [hlog]
    · exact hsub
  refine ⟨hsub, hsnap, ?_⟩
  intro t ht
  exact find?_topic_isSome_iff.mpr (hsnap ht)

/-- Witness for C10: after removing `t1` on `logEx`, the snapshot member
`t2` is found in the descriptor. -/
theorem C10_snapshot_within_descriptor_witness :
    (logEx.descriptor.topicsToMsgTypesToId.find? (fun e => e.1 == "t2")).isSome
      = true :=
  (C10_snapshot_within_descriptor logEx [SelectorOp.removeName "t1"]).2.2
    "t2" (by decide)

/-- Claim C7: selector mutations performed on the factory after `Start` do
not change the issued handle: its record (topic set, publishers table and
batch), and therefore the messages it emits for any stop time, are those
computed from the snapshot frozen at `Start`. -/
theorem C7_snapshot_frozen (w : PlaybackWorld) (q : Finset String → List Message)
    (ops : List SelectorOp) (tstop : Option Int) :
    ((w.start q).applyOps ops).issued = (w.start q).issued
    ∧ (((w.start q).applyOps ops).issued.map
          (fun h => (PlaybackHandle.StartPlayback tstop h.batch).emitted))
      = ((w.start q).issued.map
          (fun h => (PlaybackHandle.StartPlayback tstop h.batch).emitted))
    ∧ (w.factory.logFile.valid = true →
        ((w.start q).applyOps ops).issued
          = some (mkHandleData w.factory.logFile w.factory.StartSnapshot
              (q w.factory.StartSnapshot))) := by
  have hpres : ∀ (ww : PlaybackWorld) (l : List SelectorOp),
      (ww.applyOps l).issued = ww.issued := by
    intro ww l
    induction l generalizing ww with
    | nil => rfl
    | cons op rest ih =>
        simp only [PlaybackWorld.applyOps, List.foldl_cons]
        exact ih (ww.applyOp op)
  refine ⟨hpres _ ops, by rw [hpres _ ops], ?_⟩
  intro hv
  rw [hpres _ ops]
  simp [PlaybackWorld.start, hv]

/-- Witness for C7: on `logEx`, issuing a handle and then removing `t1`
from the factory leaves the issued handle's record unchanged. -/
theorem C7_snapshot_frozen_witness :
    ((PlaybackWorld.start (fun _ => sampleBatch) ⟨Playback.init logEx, none⟩).applyOps
        [SelectorOp.removeName "t1"]).issued
      = (PlaybackWorld.start (fun _ => sampleBatch)
          ⟨Playback.init logEx, none⟩).issued
    ∧ ((PlaybackWorld.start (fun _ => sampleBatch) ⟨Playback.init logEx, none⟩).applyOps
        [SelectorOp.removeName "t1"]).issued
      = some (mkHandleData logEx (Playback.init logEx).StartSnapshot sampleBatch) := by
  have h := C7_snapshot_frozen ⟨Playback.init logEx, none⟩
    (fun _ => sampleBatch) [SelectorOp.removeName "t1"] none
  exact ⟨h.1, h.2.2 rfl⟩

/-- Claim C8: given that the batch yields messages in non-decreasing
`time_received` order, any two messages emitted by the worker with
emission indices i < j satisfy
`emitted[i].time_received <= emitted[j].time_received`. -/
theorem C8_emission_time_monotone (tstop : Option Int) (batch : List Message)
    (hsorted : batch.Sorted (fun a b => a.timeReceived ≤ b.timeReceived))
    (i j : Nat) (hj : j < (PlaybackHandle.StartPlayback tstop batch).emitted.length)
    (hij : i < j) :
    ((PlaybackHandle.StartPlayback tstop batch).emitted.get
        ⟨i, lt_trans hij hj⟩).timeReceived
      ≤ ((PlaybackHandle.StartPlayback tstop batch).emitted.get
        ⟨j, hj⟩).timeReceived := by
  have hsub := playbackLoop_sublist tstop batch 0 none
  have hs : ((PlaybackHandle.StartPlayback tstop batch).emitted).Sorted
      (fun a b => a.timeReceived ≤ b.timeReceived) := hsorted.sublist hsub
  exact hs.rel_get_of_lt hij

/-- Witness for C8: the S2 batch is sorted, and with no stop request the
first two emitted messages are in time order. -/
theorem C8_emission_time_monotone_witness :
    List.Sorted (fun a b : Message => a.timeReceived ≤ b.timeReceived) sampleBatch
    ∧ ((PlaybackHandle.StartPlayback none sampleBatch).emitted.get
        ⟨0, by decide⟩).timeReceived
      ≤ ((PlaybackHandle.StartPlayback none sampleBatch).emitted.get
        ⟨1, by decide⟩).timeReceived :=
  ⟨by decide,
   C8_emission_time_monotone none sampleBatch (by decide) 0 1 (by decide) (by decide)⟩

/-- Claim C3, counterexample: an interleaving reachable from the initial
handle configuration in which a `WaitUntilFinished()` call has returned
while `finished` is still false: a concurrent `Stop()` set the stop flag,
the waiter took its fast path, and the worker has not exited yet. -/
theorem C3_counterexample :
    Relation.ReflTransGen HandleStep handleInit handleRaceConfig
    ∧ handleRaceConfig.waiter = WaiterPhase.returned
    ∧ handleRaceConfig.finished = false :=
  ⟨reach_handleRaceConfig, rfl, rfl⟩

/-- Claim C3, amended: in every reachable configuration in which a
`WaitUntilFinished()` call has returned, either `finished` is true or the
stop flag had been raised (by a concurrent `Stop()` whose join has not
completed yet); absent a concurrent `Stop()`, the stop flag is only set by
the exiting worker after `finished`, so `finished` is then true. -/
theorem C3_wait_return_stop_or_finished (c : HandleConfig)
    (hreach : Relation.ReflTransGen HandleStep handleInit c)
    (hret : c.waiter = WaiterPhase.returned) :
    c.stop = true ∨ c.finished = true := by
  have inv : ∀ d : HandleConfig, Relation.ReflTransGen HandleStep handleInit d →
      d.validLog = true
      ∧ (d.waiter = WaiterPhase.returned → d.stop = true ∨ d.finished = true) := by
    intro d hd
    induction hd with
    | refl =>
        refine ⟨rfl, ?_⟩
        intro h
        simp [handleInit] at h
    | tail hsteps hstep ih => cases hstep <;> simp_all
  exact (inv c hreach).2 hret

/-- Witness for the amended C3 at the concrete raced configuration. -/
theorem C3_wait_return_stop_or_finished_witness :
    handleRaceConfig.stop = true ∨ handleRaceConfig.finished = true :=
  C3_wait_return_stop_or_finished handleRaceConfig reach_handleRaceConfig rfl
